import Mathlib

/-!
Shallow embedding of the langroid-ui session/callback bridge
(`backend/core/websocket_callbacks.py`, `backend/core/session_callbacks.py`,
event shapes from `backend/models/messages.py`), with theorems checking the
natural-language specification's claims against it.

Modelling conventions:
* Python dict events are the inductive `Ev`; the `_trace_id` key that
  `_queue_message` adds before the enqueue is the `traceId` field of `Queued`
  (`none` models a dict without that key, as sent directly by the session).
* `uuid4()` draws are modelled by a fresh counter (`nextId`); each draw takes
  the next number, so generated message ids and trace ids are `Nat`.
* The SHA-256/16-hex fingerprint of `_get_message_hash` is kept abstract: the
  definitions take an arbitrary `hash : String → String` and the theorems hold
  for every choice of fingerprint function (concrete instances use `fun x => x`).
* Python's `content.strip()` is `pyStrip` (drop leading and trailing
  whitespace); the truthiness test `if content and content.strip()` is
  `pyStrip content ≠ ""`.
-/

namespace LangroidUI

/-- Python's `str.strip()`: the string with leading and trailing whitespace
characters removed. -/
def pyStrip (s : String) : String :=
  ⟨((s.data.dropWhile Char.isWhitespace).reverse.dropWhile
      Char.isWhitespace).reverse⟩

/-- The outbound event union, from `backend/models/messages.py`
(`StreamStart`, `StreamToken`, `StreamEnd`, `CompleteMessage`,
`ConnectionStatus`) plus the raw `{"type": "pong"}` dict that
`CallbackChatSession.handle_message` sends.  The models file defines no
stream-cancel shape, so the union has no such constructor. -/
inductive Ev where
  | streamStart (messageId : Nat) (sender : String)
  | streamToken (messageId : Nat) (token : String)
  | streamEnd (messageId : Nat)
  | completeMessage (id : Nat) (content : String) (sender : String)
  | connectionStatus (status : String) (sessionId : String)
  | pong
deriving DecidableEq

/-- A serialized message as it travels to the client: the event dict plus the
optional `_trace_id` key (`some t` when `_queue_message` stamped it, `none`
for dicts sent directly by the session without passing the queue). -/
structure Queued where
  ev : Ev
  traceId : Option Nat
deriving DecidableEq

/-- The per-session mutable state of `WebSocketCallbacks` (fields set in
`__init__` and `CallbackContext`), restricted to what the dedup/stream logic
reads or writes.  `nextId` is the model's fresh-uuid counter. -/
structure CBState where
  sentMessageHashes : List String
  currentResponseContent : Option String
  messageSentByPrimary : Bool
  streamStarted : Bool
  currentStreamId : Option Nat
  streamingTokens : List String
  cachedMessageSent : Bool
  nextId : Nat
deriving DecidableEq

/-- The state right after `WebSocketCallbacks.__init__`. -/
def initState : CBState :=
  { sentMessageHashes := []
    currentResponseContent := none
    messageSentByPrimary := false
    streamStarted := false
    currentStreamId := none
    streamingTokens := []
    cachedMessageSent := false
    nextId := 0 }

/-- Draw a fresh uuid (modelled as the next counter value). -/
def freshId (s : CBState) : Nat × CBState :=
  (s.nextId, { s with nextId := s.nextId + 1 })

/-- Models `WebSocketCallbacks._queue_message`: a fresh `_trace_id` is written
into the dict, then the dict is handed to the outbound asyncio queue via the
event loop's thread-safe mechanism. -/
def queueMessage (s : CBState) (e : Ev) : CBState × Queued :=
  let (t, s') := freshId s
  (s', { ev := e, traceId := some t })

/-- Models `WebSocketCallbacks._get_message_hash`: the SHA-256-derived
fingerprint of the content, kept abstract as `hash`. -/
def getMessageHash (hash : String → String) (content : String) : String :=
  hash content

/-- Models `WebSocketCallbacks._is_message_already_sent`: empty or
whitespace-only content counts as already sent; otherwise membership of the
trimmed content's fingerprint in `_sent_message_hashes`. -/
def isMessageAlreadySent (hash : String → String) (s : CBState)
    (content : String) : Bool :=
  if pyStrip content = "" then true
  else s.sentMessageHashes.contains (getMessageHash hash (pyStrip content))

/-- Models `WebSocketCallbacks._mark_message_as_sent`: adds the trimmed
content's fingerprint to `_sent_message_hashes` (no-op on empty content). -/
def markMessageAsSent (hash : String → String) (s : CBState)
    (content : String) : CBState :=
  if pyStrip content = "" then s
  else { s with sentMessageHashes :=
          getMessageHash hash (pyStrip content) :: s.sentMessageHashes }

/-- Models `WebSocketCallbacks._reset_deduplication_state`: clears the content
fingerprints and the primary-sender flag. -/
def resetDeduplicationState (s : CBState) : CBState :=
  { s with currentResponseContent := none
           messageSentByPrimary := false
           sentMessageHashes := [] }

/-- Models `WebSocketCallbacks._send_assistant_message`: skips empty content,
otherwise mints a fresh message id and enqueues a `complete_message`. -/
def sendAssistantMessage (s : CBState) (content : String) :
    CBState × List Queued :=
  if pyStrip content = "" then (s, [])
  else
    let (msgId, s₁) := freshId s
    let (s₂, q) := queueMessage s₁ (Ev.completeMessage msgId content "assistant")
    (s₂, [q])

/-- Models `WebSocketCallbacks.start_llm_stream`: marks the stream started,
clears the token buffer, mints a fresh stream id and enqueues `stream_start`. -/
def startLlmStream (s : CBState) : CBState × List Queued :=
  let s₀ := { s with streamStarted := true, streamingTokens := [] }
  let (msgId, s₁) := freshId s₀
  let s₂ := { s₁ with currentStreamId := some msgId }
  let (s₃, q) := queueMessage s₂ (Ev.streamStart msgId "assistant")
  (s₃, [q])

/-- Models the `stream_token` closure returned by `start_llm_stream`: appends
the token to `_streaming_tokens` and enqueues a `stream_token` carrying the
stream's message id (the closure only exists while a stream is active, so the
captured id is read from `currentStreamId`). -/
def streamTokenCb (s : CBState) (token : String) : CBState × List Queued :=
  match s.currentStreamId with
  | none => (s, [])
  | some msgId =>
      let s₁ := { s with streamingTokens := s.streamingTokens ++ [token] }
      let (s₂, q) := queueMessage s₁ (Ev.streamToken msgId token)
      (s₂, [q])

/-- Models `WebSocketCallbacks.finish_llm_stream`: returns early when no
stream was started; otherwise unconditionally enqueues `stream_end` for the
current stream id, then — when the content is non-empty and its fingerprint is
not yet recorded — enqueues a fallback `complete_message` reusing the stream's
message id and marks the content as sent; finally clears the stream state. -/
def finishLlmStream (hash : String → String) (s : CBState)
    (content : String) : CBState × List Queued :=
  if !s.streamStarted then (s, [])
  else
    let msgId := s.currentStreamId.getD 0
    let (s₁, qEnd) := queueMessage s (Ev.streamEnd msgId)
    if pyStrip content = "" then
      ({ s₁ with streamStarted := false, currentStreamId := none }, [qEnd])
    else if isMessageAlreadySent hash s₁ (pyStrip content) then
      ({ s₁ with streamStarted := false, currentStreamId := none }, [qEnd])
    else
      let (s₂, qMsg) :=
        queueMessage s₁ (Ev.completeMessage msgId content "assistant")
      let s₃ := markMessageAsSent hash s₂ (pyStrip content)
      ({ s₃ with streamStarted := false, currentStreamId := none }, [qEnd, qMsg])

/-- Models `WebSocketCallbacks.show_llm_response` (secondary sender): skips
empty content and content already sent; otherwise enqueues a fallback
`complete_message` under a fresh id and marks the content as sent. -/
def showLlmResponse (hash : String → String) (s : CBState)
    (content : String) : CBState × List Queued :=
  if pyStrip content = "" then (s, [])
  else if isMessageAlreadySent hash s (pyStrip content) then (s, [])
  else
    let (msgId, s₁) := freshId s
    let (s₂, q) := queueMessage s₁ (Ev.completeMessage msgId content "assistant")
    (markMessageAsSent hash s₂ (pyStrip content), [q])

/-- Models the tail of `WebSocketCallbacks._llm_response_messages_with_context`
(primary sender), applied to the content of the response the original engine
method returned (`none` models a falsy response object): strips the content,
skips it when already sent, otherwise sends it via `_send_assistant_message`,
marks it, sets `_message_sent_by_primary`, and records the cached flag. -/
def llmResponseMessagesWithContext (hash : String → String) (s : CBState)
    (responseContent : Option String) (cached : Bool) : CBState × List Queued :=
  match responseContent with
  | none => (s, [])
  | some c =>
      if c = "" then (s, [])
      else
        let content := pyStrip c
        if isMessageAlreadySent hash s content then (s, [])
        else
          let (s₁, msgs) := sendAssistantMessage s content
          let s₂ := markMessageAsSent hash s₁ content
          let s₃ := { s₂ with
            messageSentByPrimary := true
            cachedMessageSent := if cached then true else s₂.cachedMessageSent }
          (s₃, msgs)

/-- Models the entry of `WebSocketCallbacks._llm_response_with_context`, the
start of a turn's response cycle: resets the dedup state and the stream and
cached flags BEFORE the original agent-engine method is invoked. -/
def turnStartReset (s : CBState) : CBState :=
  let s₁ := resetDeduplicationState s
  { s₁ with cachedMessageSent := false, streamStarted := false }

/-- The internal hook call-sites of the bridge that the claims range over.
`turnStart` is the entry of `_llm_response_with_context`; the rest are the
callbacks the engine fires while the original method runs, plus the primary
sender's post-processing. -/
inductive Hook where
  | turnStart
  | startStream
  | token (t : String)
  | finishStream (content : String)
  | showResponse (content : String)
  | primaryResponse (content : Option String) (cached : Bool)
deriving DecidableEq

/-- One hook invocation: the updated callback state and the messages it
enqueued on the outbound delivery queue, in enqueue order. -/
def stepHook (hash : String → String) (s : CBState) (h : Hook) :
    CBState × List Queued :=
  match h with
  | .turnStart => (turnStartReset s, [])
  | .startStream => startLlmStream s
  | .token t => streamTokenCb s t
  | .finishStream c => finishLlmStream hash s c
  | .showResponse c => showLlmResponse hash s c
  | .primaryResponse c cached => llmResponseMessagesWithContext hash s c cached

/-- Run a sequence of hook invocations, concatenating the enqueued messages. -/
def runHooks (hash : String → String) (s : CBState) (evs : List Hook) :
    CBState × List Queued :=
  match evs with
  | [] => (s, [])
  | h :: rest =>
      let (s₁, msgs) := stepHook hash s h
      let (s₂, more) := runHooks hash s₁ rest
      (s₂, msgs ++ more)

/-- Number of `complete_message` events in `msgs` whose content is `c`. -/
def completeCount (msgs : List Queued) (c : String) : Nat :=
  (msgs.filter (fun q =>
    match q.ev with
    | Ev.completeMessage _ content _ => content = c
    | _ => false)).length


/-- A `complete_message` event whose content is exactly `c`. -/
def isCompleteOf (c : String) (q : Queued) : Bool :=
  match q.ev with
  | Ev.completeMessage _ content _ => content = c
  | _ => false

/-- Hook events that may occur inside one turn in which `c` is the only
finalized content the engine surfaces: stream framing events plus
observations of `c` by any of the three sender call-sites. -/
def turnObsOf (c : String) (h : Hook) : Bool :=
  match h with
  | .turnStart => false
  | .startStream => true
  | .token _ => true
  | .finishStream c' => c' = c
  | .showResponse c' => c' = c
  | .primaryResponse c' _ => c' = some c

/-- The sender call-sites that always process a non-empty content they
observe: the primary sender and the `show_llm_response` fallback. -/
def directObsOf (c : String) (h : Hook) : Bool :=
  match h with
  | .showResponse c' => c' = c
  | .primaryResponse c' _ => c' = some c
  | _ => false

/-- The WebSocket connection states of `session_callbacks.WebSocketState`. -/
inductive WSState where
  | connected
  | disconnected
  | reconnecting
deriving DecidableEq

/-- The per-session state of `CallbackChatSession`, restricted to what the
claims read or write.  The transport handle (`websocket`) is an opaque
connection number; `taskThreadAlive` models `_task_thread.is_alive()`. -/
structure Session where
  sessionId : String
  websocket : Nat
  outgoingQueue : List Queued
  userInputQueue : List String
  running : Bool
  websocketState : WSState
  taskPaused : Bool
  pauseEventSet : Bool
  taskThreadAlive : Bool
deriving DecidableEq

/-- A `CallbackChatSession` right after `__init__`: connected, unpaused,
pause gate set, no turn-loop thread yet, empty queues. -/
def newSession (sessionId : String) (ws : Nat) : Session :=
  { sessionId := sessionId
    websocket := ws
    outgoingQueue := []
    userInputQueue := []
    running := false
    websocketState := WSState.connected
    taskPaused := false
    pauseEventSet := true
    taskThreadAlive := false }

/-- Models `CallbackChatSession._pause_task`. -/
def pauseTask (s : Session) : Session :=
  if !s.taskPaused then
    { s with taskPaused := true, pauseEventSet := false }
  else s

/-- Models `CallbackChatSession._resume_task`. -/
def resumeTask (s : Session) : Session :=
  if s.taskPaused then
    { s with taskPaused := false, pauseEventSet := true }
  else s

/-- Models `CallbackChatSession.set_websocket_state` (under the state lock):
records the new state, pauses the task on DISCONNECTED, resumes it on a
transition into CONNECTED. -/
def setWebsocketState (s : Session) (st : WSState) : Session :=
  let old := s.websocketState
  let s₁ := { s with websocketState := st }
  if st = WSState.disconnected then pauseTask s₁
  else if st = WSState.connected ∧ old ≠ WSState.connected then resumeTask s₁
  else s₁

/-- Models `CallbackChatSession._clear_stale_user_input`: drains the inbound
input queue. -/
def clearStaleUserInput (s : Session) : Session :=
  { s with userInputQueue := [] }

/-- Models `CallbackChatSession.start`: sets `_running`, sends a
`connection_status` dict DIRECTLY over the websocket (not via the outbound
queue, hence no `_trace_id`), starts the drain task, and starts a turn-loop
thread only when `send_greeting` is true and no thread is alive.  Returns the
updated session, the directly sent messages, and whether a new turn-loop
thread was started. -/
def startSession (s : Session) (sendGreeting : Bool) :
    Session × List Queued × Bool :=
  let s₁ := { s with running := true }
  let sent := [{ ev := Ev.connectionStatus "connected" s.sessionId,
                 traceId := none }]
  if sendGreeting && !s₁.taskThreadAlive then
    ({ s₁ with taskThreadAlive := true }, sent, true)
  else (s₁, sent, false)

/-- Outcome tag of `CallbackChatSession.handle_message`. -/
inductive Handled where
  | queuedInput
  | droppedWhileDisconnected
  | ponged
  | ignoredUnknown
deriving DecidableEq

/-- Models `CallbackChatSession.handle_message` on an inbound dict with the
given `type` field and `content`: user text is pushed on the inbound input
queue while connected; `"ping"` is answered directly with a `{"type":"pong"}`
dict; any other type is logged and ignored (no state change, no exception,
connection left open).  The middle component is the list of directly sent
messages. -/
def handleMessage (s : Session) (msgType : String) (content : String) :
    Session × List Queued × Handled :=
  if msgType = "user_input" ∨ msgType = "message" then
    if s.websocketState = WSState.connected then
      ({ s with userInputQueue := s.userInputQueue ++ [content] }, [],
        Handled.queuedInput)
    else (s, [], Handled.droppedWhileDisconnected)
  else if msgType = "ping" then
    (s, [{ ev := Ev.pong, traceId := none }], Handled.ponged)
  else (s, [], Handled.ignoredUnknown)

/-- The registry state of `CallbackSessionManager`: sessions by session id
and the browser-identity map, both as association lists. -/
structure SessionManager where
  sessions : List (String × Session)
  browserSessions : List (String × String)
deriving DecidableEq

/-- Python dict lookup on an association list. -/
def lookupAssoc {α : Type} (l : List (String × α)) (k : String) : Option α :=
  match l with
  | [] => none
  | (k', v) :: rest => if k' = k then some v else lookupAssoc rest k

/-- Python dict assignment on an association list. -/
def setAssoc {α : Type} (l : List (String × α)) (k : String) (v : α) :
    List (String × α) :=
  match l with
  | [] => [(k, v)]
  | (k', v') :: rest =>
      if k' = k then (k, v) :: rest else (k', v') :: setAssoc rest k v

/-- The new-session branch of `create_or_get_session`: construct a fresh
`CallbackChatSession` under a fresh id, register it, track the browser
identity when given, and return `is_new = true`. -/
def createNewSession (mgr : SessionManager) (ws : Nat)
    (browserSessionId : Option String) (freshSid : String) :
    SessionManager × Session × Bool :=
  let s := newSession freshSid ws
  let mgr₁ := { mgr with sessions := setAssoc mgr.sessions freshSid s }
  let mgr₂ :=
    match browserSessionId with
    | some b =>
        { mgr₁ with browserSessions := setAssoc mgr₁.browserSessions b freshSid }
    | none => mgr₁
  (mgr₂, s, true)

/-- Models `CallbackSessionManager.create_or_get_session`: when the browser
identity maps to a registered session, rebind its websocket to the new
connection, clear the stale inbound input queue and the outgoing queue, set
the connection state to CONNECTED, and return it with `is_new = false`
(no turn-loop thread is touched); otherwise construct a new session. -/
def createOrGetSession (mgr : SessionManager) (ws : Nat)
    (browserSessionId : Option String) (freshSid : String) :
    SessionManager × Session × Bool :=
  match browserSessionId with
  | some b =>
      match lookupAssoc mgr.browserSessions b with
      | some sid =>
          match lookupAssoc mgr.sessions sid with
          | some s =>
              let s₁ := { s with websocket := ws }
              let s₂ := clearStaleUserInput s₁
              let s₃ := { s₂ with outgoingQueue := [] }
              let s₄ := setWebsocketState s₃ WSState.connected
              ({ mgr with sessions := setAssoc mgr.sessions sid s₄ }, s₄, false)
          | none => createNewSession mgr ws (some b) freshSid
      | none => createNewSession mgr ws (some b) freshSid
  | none => createNewSession mgr ws none freshSid

/-- The blocking points of `WebSocketCallbacks.get_user_response`, in the
order the operation parks on them. -/
inductive WaitAction where
  | waitPauseGate
  | waitInputQueue
deriving DecidableEq

/-- Models `WebSocketCallbacks.get_user_response`.  `hasSession` is whether
the context carries a session with a `_pause_event`; `gateInitiallySet` is
the gate's state on entry; `gateSetWithinTimeout` is whether reconnection
sets the gate within the 300 s bound of `pause_event.wait(timeout=300)` —
after which the code falls through regardless.  The inbound queue is `q`; an
empty queue models `queue.get(timeout=300)` raising `queue.Empty`, on which
the sentinel `""` is returned instead of an exception.  The third component
is the ordered trace of blocking actions. -/
def getUserResponse (hasSession gateInitiallySet gateSetWithinTimeout : Bool)
    (q : List String) : String × List String × List WaitAction :=
  let gateTrace :=
    if hasSession && !gateInitiallySet then [WaitAction.waitPauseGate] else []
  match q with
  | [] => ("", [], gateTrace ++ [WaitAction.waitInputQueue])
  | x :: rest => (x, rest, gateTrace ++ [WaitAction.waitInputQueue])


lemma completeCount_eq (msgs : List Queued) (c : String) :
    completeCount msgs c = (msgs.filter (isCompleteOf c)).length := by
  unfold completeCount isCompleteOf
  rfl

lemma completeCount_append (a b : List Queued) (c : String) :
    completeCount (a ++ b) c = completeCount a c + completeCount b c := by
  simp [completeCount_eq, List.filter_append]

lemma dedupStep (hash : String → String) (c : String)
    (hc : pyStrip c = c) (hne : c ≠ "") (s : CBState) (h : Hook)
    (hh : turnObsOf c h = true) :
    (hash c ∈ s.sentMessageHashes →
       completeCount (stepHook hash s h).2 c = 0 ∧
       hash c ∈ (stepHook hash s h).1.sentMessageHashes) ∧
    (hash c ∉ s.sentMessageHashes →
       completeCount (stepHook hash s h).2 c =
         (if hash c ∈ (stepHook hash s h).1.sentMessageHashes then 1 else 0)) ∧
    (directObsOf c h = true →
       hash c ∈ (stepHook hash s h).1.sentMessageHashes) := by
  cases h with
  | turnStart => simp [turnObsOf] at hh
  | startStream =>
      refine ⟨fun hin => ?_, fun hout => ?_, fun hd => ?_⟩
      · simp [stepHook, startLlmStream, freshId, queueMessage, completeCount,
              hin]
      · simp [stepHook, startLlmStream, freshId, queueMessage, completeCount,
              hout]
      · simp [directObsOf] at hd
  | token t =>
      refine ⟨fun hin => ?_, fun hout => ?_, fun hd => ?_⟩
      · cases hcs : s.currentStreamId <;>
          simp [stepHook, streamTokenCb, hcs, freshId, queueMessage,
                completeCount, hin]
      · cases hcs : s.currentStreamId <;>
          simp [stepHook, streamTokenCb, hcs, freshId, queueMessage,
                completeCount, hout]
      · simp [directObsOf] at hd
  | finishStream c' =>
      have hc' : c' = c := by
        simp [turnObsOf] at hh
        exact hh
      subst hc'
      cases hst : s.streamStarted with
      | false =>
          refine ⟨fun hin => ?_, fun hout => ?_, fun hd => ?_⟩
          · simp [stepHook, finishLlmStream, hst, completeCount, hin]
          · simp [stepHook, finishLlmStream, hst, completeCount, hout]
          · simp [directObsOf] at hd
      | true =>
          by_cases hcon : hash c' ∈ s.sentMessageHashes
          · refine ⟨fun hin => ?_, fun hout => ?_, fun hd => ?_⟩
            · simp [stepHook, finishLlmStream, hst, hc, hne, freshId,
                    queueMessage, isMessageAlreadySent, getMessageHash, hcon,
                    completeCount]
            · exact absurd hcon hout
            · simp [directObsOf] at hd
          · refine ⟨fun hin => ?_, fun hout => ?_, fun hd => ?_⟩
            · exact absurd hin hcon
            · simp [stepHook, finishLlmStream, hst, hc, hne, freshId,
                    queueMessage, isMessageAlreadySent, getMessageHash, hcon,
                    markMessageAsSent, completeCount]
            · simp [directObsOf] at hd
  | showResponse c' =>
      have hc' : c' = c := by
        simp [turnObsOf] at hh
        exact hh
      subst hc'
      by_cases hcon : hash c' ∈ s.sentMessageHashes
      · refine ⟨fun hin => ?_, fun hout => ?_, fun hd => ?_⟩
        · simp [stepHook, showLlmResponse, hc, hne, isMessageAlreadySent,
                getMessageHash, hcon, completeCount]
        · exact absurd hcon hout
        · simp [stepHook, showLlmResponse, hc, hne, isMessageAlreadySent,
                getMessageHash, hcon]
      · refine ⟨fun hin => ?_, fun hout => ?_, fun hd => ?_⟩
        · exact absurd hin hcon
        · simp [stepHook, showLlmResponse, hc, hne, isMessageAlreadySent,
                getMessageHash, hcon, freshId, queueMessage, markMessageAsSent,
                completeCount]
        · simp [stepHook, showLlmResponse, hc, hne, isMessageAlreadySent,
                getMessageHash, hcon, freshId, queueMessage, markMessageAsSent]
  | primaryResponse oc cached =>
      have hoc : oc = some c := by
        cases oc <;> simpa [turnObsOf] using hh
      subst hoc
      by_cases hcon : hash c ∈ s.sentMessageHashes
      · refine ⟨fun hin => ?_, fun hout => ?_, fun hd => ?_⟩
        · simp [stepHook, llmResponseMessagesWithContext, hc, hne,
                isMessageAlreadySent, getMessageHash, hcon, completeCount]
        · exact absurd hcon hout
        · simp [stepHook, llmResponseMessagesWithContext, hc, hne,
                isMessageAlreadySent, getMessageHash, hcon]
      · refine ⟨fun hin => ?_, fun hout => ?_, fun hd => ?_⟩
        · exact absurd hin hcon
        · simp [stepHook, llmResponseMessagesWithContext, hc, hne,
                isMessageAlreadySent, getMessageHash, hcon,
                sendAssistantMessage, freshId, queueMessage, markMessageAsSent,
                completeCount]
        · simp [stepHook, llmResponseMessagesWithContext, hc, hne,
                isMessageAlreadySent, getMessageHash, hcon,
                sendAssistantMessage, freshId, queueMessage, markMessageAsSent]


lemma runHooks_cons (hash : String → String) (s : CBState) (h : Hook)
    (rest : List Hook) :
    runHooks hash s (h :: rest) =
      ((runHooks hash (stepHook hash s h).1 rest).1,
        (stepHook hash s h).2 ++ (runHooks hash (stepHook hash s h).1 rest).2) := by
  simp [runHooks]

lemma dedupRun (hash : String → String) (c : String)
    (hc : pyStrip c = c) (hne : c ≠ "") :
    ∀ evs : List Hook, ∀ s : CBState,
    (∀ h ∈ evs, turnObsOf c h = true) →
    (hash c ∈ s.sentMessageHashes →
       completeCount (runHooks hash s evs).2 c = 0 ∧
       hash c ∈ (runHooks hash s evs).1.sentMessageHashes) ∧
    (hash c ∉ s.sentMessageHashes →
       completeCount (runHooks hash s evs).2 c =
         (if hash c ∈ (runHooks hash s evs).1.sentMessageHashes then 1 else 0)) ∧
    ((∃ h ∈ evs, directObsOf c h = true) →
       hash c ∈ (runHooks hash s evs).1.sentMessageHashes) := by
  intro evs
  induction evs with
  | nil =>
      intro s _
      refine ⟨fun hin => ?_, fun hout => ?_, fun hd => ?_⟩
      · simpa [runHooks, completeCount] using hin
      · simp [runHooks, completeCount, hout]
      · simp at hd
  | cons h rest ih =>
      intro s hall
      have hh : turnObsOf c h = true := hall h (by simp)
      have hrest : ∀ h' ∈ rest, turnObsOf c h' = true :=
        fun h' hm => hall h' (by simp [hm])
      have hstep := dedupStep hash c hc hne s h hh
      have hih := ih (stepHook hash s h).1 hrest
      rw [runHooks_cons]
      refine ⟨fun hin => ?_, fun hout => ?_, fun hd => ?_⟩
      · obtain ⟨hcnt, hmem⟩ := hstep.1 hin
        obtain ⟨hcnt', hmem'⟩ := hih.1 hmem
        simp [completeCount_append, hcnt, hcnt', hmem']
      · by_cases hmid : hash c ∈ (stepHook hash s h).1.sentMessageHashes
        · obtain ⟨hcnt', hmem'⟩ := hih.1 hmid
          have hcnt := hstep.2.1 hout
          simp [completeCount_append, hcnt, hcnt', hmid, hmem']
        · have hcnt := hstep.2.1 hout
          have hcnt' := hih.2.1 hmid
          simp [completeCount_append, hcnt, hcnt', hmid]
      · obtain ⟨h', hm', hd'⟩ := hd
        rcases List.mem_cons.mp hm' with heq | hmrest
        · subst heq
          have hmem := hstep.2.2 hd'
          exact (hih.1 hmem).2
        · exact hih.2.2 ⟨h', hmrest, hd'⟩

/-- Claim C1. — In one turn (the dedup ledger starts empty), when the finalized
non-empty content `c` is observed by any number of the three sender
call-sites — the primary `_llm_response_messages_with_context`
(`Hook.primaryResponse`), `show_llm_response` (`Hook.showResponse`) and
`finish_llm_stream` (`Hook.finishStream`) — possibly interleaved with stream
framing events, and at least one always-effective observer (primary or
`show_llm_response`) occurs, then exactly one `complete_message` carrying
content `c` is enqueued on the outbound queue during the turn; moreover any
observation of `c` made after its fingerprint is in the ledger enqueues no
`complete_message` (it is discarded by the fingerprint check). -/
theorem C1_dedup_exactly_once_per_turn (hash : String → String) (c : String)
    (hc : pyStrip c = c) (hne : c ≠ "") (s₀ : CBState)
    (hled : s₀.sentMessageHashes = []) (evs : List Hook)
    (hobs : ∀ h ∈ evs, turnObsOf c h = true)
    (heff : ∃ h ∈ evs, directObsOf c h = true) :
    completeCount (runHooks hash s₀ evs).2 c = 1 ∧
    (∀ s : CBState, ∀ h : Hook, hash c ∈ s.sentMessageHashes →
       turnObsOf c h = true → completeCount (stepHook hash s h).2 c = 0) := by
  constructor
  · have hrun := dedupRun hash c hc hne evs s₀ hobs
    have hout : hash c ∉ s₀.sentMessageHashes := by simp [hled]
    have hmem := hrun.2.2 heff
    have := hrun.2.1 hout
    simp [hmem] at this
    exact this
  · intro s h hin hh
    exact ((dedupStep hash c hc hne s h hh).1 hin).1

/-- Witness for C1 at a concrete turn: the primary sender, the
`show_llm_response` fallback and `finish_llm_stream` all observe `"hi"`, and
exactly one `complete_message` with content `"hi"` is enqueued. -/
theorem C1_dedup_exactly_once_per_turn_witness :
    completeCount (runHooks (fun x => x) initState
      [Hook.primaryResponse (some "hi") false, Hook.showResponse "hi",
       Hook.finishStream "hi"]).2 "hi" = 1 :=
  (C1_dedup_exactly_once_per_turn (fun x => x) "hi" (by decide) (by decide)
    initState rfl
    [Hook.primaryResponse (some "hi") false, Hook.showResponse "hi",
     Hook.finishStream "hi"]
    (by decide) ⟨Hook.showResponse "hi", by decide, by decide⟩).1



lemma markMessageAsSent_mono (hash : String → String) (s : CBState)
    (content x : String) (hx : x ∈ s.sentMessageHashes) :
    x ∈ (markMessageAsSent hash s content).sentMessageHashes := by
  unfold markMessageAsSent
  split
  · exact hx
  · simp [getMessageHash, hx]

/-- Claim C4. — The dedup ledger is cleared exactly by the turn-start hook (the
entry of `_llm_response_with_context`, which runs before the agent engine is
invoked for the turn, and enqueues nothing); no other hook ever removes a
fingerprint from the ledger during the turn; and consequently, across two
consecutive turns, the same content value is legitimately delivered twice. -/
theorem C4_ledger_cleared_only_at_turn_start (hash : String → String) :
    (∀ s : CBState,
       (stepHook hash s Hook.turnStart).1.sentMessageHashes = [] ∧
       (stepHook hash s Hook.turnStart).2 = []) ∧
    (∀ (s : CBState) (h : Hook), h ≠ Hook.turnStart →
       ∀ x ∈ s.sentMessageHashes,
         x ∈ (stepHook hash s h).1.sentMessageHashes) ∧
    completeCount (runHooks hash initState
      [Hook.turnStart, Hook.primaryResponse (some "hello") false,
       Hook.turnStart, Hook.primaryResponse (some "hello") false]).2
      "hello" = 2 := by
  refine ⟨?_, ?_, ?_⟩
  · intro s
    simp [stepHook, turnStartReset, resetDeduplicationState]
  · intro s h hne x hx
    cases h with
    | turnStart => exact absurd rfl hne
    | startStream =>
        simpa [stepHook, startLlmStream, freshId, queueMessage] using hx
    | token t =>
        cases hcs : s.currentStreamId <;>
          simpa [stepHook, streamTokenCb, hcs, freshId, queueMessage] using hx
    | finishStream c =>
        simp only [stepHook, finishLlmStream]
        split
        · exact hx
        · split
          · simpa [queueMessage, freshId] using hx
          · split
            · simpa [queueMessage, freshId] using hx
            · exact markMessageAsSent_mono hash _ _ x
                (by simpa [queueMessage, freshId] using hx)
    | showResponse c =>
        simp only [stepHook, showLlmResponse]
        split
        · exact hx
        · split
          · exact hx
          · exact markMessageAsSent_mono hash _ _ x
              (by simpa [queueMessage, freshId] using hx)
    | primaryResponse oc cached =>
        cases oc with
        | none => simpa [stepHook, llmResponseMessagesWithContext] using hx
        | some cr =>
            simp only [stepHook, llmResponseMessagesWithContext]
            split
            · exact hx
            · split
              · exact hx
              · refine markMessageAsSent_mono hash _ _ x ?_
                simp only [sendAssistantMessage]
                split
                · exact hx
                · simpa [queueMessage, freshId] using hx
  · have h1 : pyStrip "hello" = "hello" := by decide
    simp [runHooks, stepHook, turnStartReset, resetDeduplicationState,
          llmResponseMessagesWithContext, isMessageAlreadySent, getMessageHash,
          sendAssistantMessage, markMessageAsSent, freshId, queueMessage,
          completeCount, initState, h1]

/-- Witness for C4: a non-turn-start hook preserves an existing fingerprint. -/
theorem C4_ledger_cleared_only_at_turn_start_witness :
    "k" ∈ (stepHook (fun x => x)
      { initState with sentMessageHashes := ["k"] }
      (Hook.showResponse "a")).1.sentMessageHashes :=
  (C4_ledger_cleared_only_at_turn_start (fun x => x)).2.1
    { initState with sentMessageHashes := ["k"] }
    (Hook.showResponse "a") (by decide) "k" (by decide)

lemma stepHook_no_empty_complete (hash : String → String) (s : CBState)
    (h : Hook) :
    ∀ q ∈ (stepHook hash s h).2, ∀ i c snd,
      q.ev = Ev.completeMessage i c snd → pyStrip c ≠ "" := by
  intro q hq i c snd hev
  cases h with
  | turnStart => simp [stepHook] at hq
  | startStream =>
      simp [stepHook, startLlmStream, freshId, queueMessage] at hq
      simp [hq] at hev
  | token t =>
      cases hcs : s.currentStreamId with
      | none => simp [stepHook, streamTokenCb, hcs] at hq
      | some mid =>
          simp [stepHook, streamTokenCb, hcs, freshId, queueMessage] at hq
          simp [hq] at hev
  | finishStream cr =>
      simp only [stepHook, finishLlmStream] at hq
      split at hq
      · simp at hq
      · split at hq
        · simp [queueMessage, freshId] at hq
          simp [hq] at hev
        · rename_i hguard hemp
          split at hq
          · simp [queueMessage, freshId] at hq
            simp [hq] at hev
          · simp [queueMessage, freshId] at hq
            rcases hq with hq | hq
            · simp [hq] at hev
            · simp [hq] at hev
              obtain ⟨_, hc, _⟩ := hev
              subst hc
              exact hemp
  | showResponse cr =>
      simp only [stepHook, showLlmResponse] at hq
      split at hq
      · simp at hq
      · rename_i hemp
        split at hq
        · simp at hq
        · simp [queueMessage, freshId] at hq
          simp [hq] at hev
          obtain ⟨_, hc, _⟩ := hev
          subst hc
          exact hemp
  | primaryResponse oc cached =>
      cases oc with
      | none => simp [stepHook, llmResponseMessagesWithContext] at hq
      | some cr =>
          simp only [stepHook, llmResponseMessagesWithContext] at hq
          split at hq
          · simp at hq
          · split at hq
            · simp at hq
            · simp only [sendAssistantMessage] at hq
              split at hq
              · simp at hq
              · rename_i hemp
                simp [queueMessage, freshId] at hq
                simp [hq] at hev
                obtain ⟨_, hc, _⟩ := hev
                subst hc
                exact hemp

/-- Claim C8. — On no path (primary sender, `finish_llm_stream` fallback,
`show_llm_response` fallback, or stream framing) is a `complete_message`
whose content is empty or whitespace-only ever enqueued on the outbound
delivery queue: over any run of hook invocations from any state, every
enqueued `complete_message` has non-empty stripped content. -/
theorem C8_no_empty_complete_message (hash : String → String) (s : CBState)
    (evs : List Hook) :
    ∀ q ∈ (runHooks hash s evs).2, ∀ i c snd,
      q.ev = Ev.completeMessage i c snd → pyStrip c ≠ "" := by
  induction evs generalizing s with
  | nil => simp [runHooks]
  | cons h rest ih =>
      intro q hq i c snd hev
      rw [runHooks_cons] at hq
      rcases List.mem_append.mp hq with hmem | hmem
      · exact stepHook_no_empty_complete hash s h q hmem i c snd hev
      · exact ih (stepHook hash s h).1 q hmem i c snd hev

/-- Witness for C8 at a concrete enqueue: the `complete_message` produced by
`show_llm_response` for content `"hi"` has non-empty stripped content. -/
theorem C8_no_empty_complete_message_witness : pyStrip "hi" ≠ "" :=
  C8_no_empty_complete_message (fun x => x) initState [Hook.showResponse "hi"]
    { ev := Ev.completeMessage 0 "hi" "assistant", traceId := some 1 }
    (by decide) 0 "hi" "assistant" rfl



/-- Claim C2 counterexample. — The claim says that a stream-finish whose token
buffer is empty enqueues `stream_cancel` for the current stream id instead of
`stream_end`.  On the code it fails: after a stream start with zero streamed
tokens (`streamingTokens = []`), `finish_llm_stream` enqueues exactly a
`stream_end` — it never consults the token buffer — and the outbound event
union of `models/messages.py` defines no stream-cancel shape at all. -/
theorem C2_counterexample :
    (startLlmStream (turnStartReset initState)).1.streamingTokens = [] ∧
    (finishLlmStream (fun x => x)
        (startLlmStream (turnStartReset initState)).1 "").2 =
      [{ ev := Ev.streamEnd 0, traceId := some 2 }] := by decide

/-- Claim C2 amended. — For every finish call on a started stream, the first
enqueued event is a `stream_end` for the current stream id — regardless of
whether the token buffer is empty — and when the finalized content is empty
or whitespace-only the `stream_end` is the only enqueued event (in
particular no `complete_message` follows).  No stream-cancel event exists in
the code. -/
theorem C2_amended_finish_enqueues_stream_end (hash : String → String)
    (s : CBState) (content : String) (mid : Nat)
    (hst : s.streamStarted = true) (hmid : s.currentStreamId = some mid) :
    (finishLlmStream hash s content).2.head? =
      some { ev := Ev.streamEnd mid, traceId := some s.nextId } ∧
    (pyStrip content = "" →
      (finishLlmStream hash s content).2 =
        [{ ev := Ev.streamEnd mid, traceId := some s.nextId }]) := by
  constructor
  · simp only [finishLlmStream, hst, hmid]
    split
    · simp_all
    · split
      · simp [queueMessage, freshId]
      · split
        · simp [queueMessage, freshId]
        · simp [queueMessage, freshId]
  · intro hemp
    simp [finishLlmStream, hst, hmid, hemp, queueMessage, freshId]

/-- Witness for the amended C2 at a concrete state: a started stream with id
5 finished with whitespace-only content enqueues only its `stream_end`. -/
theorem C2_amended_finish_enqueues_stream_end_witness :
    (finishLlmStream (fun x => x)
        { initState with streamStarted := true, currentStreamId := some 5,
                         nextId := 7 } " ").2 =
      [{ ev := Ev.streamEnd 5, traceId := some 7 }] :=
  (C2_amended_finish_enqueues_stream_end (fun x => x)
    { initState with streamStarted := true, currentStreamId := some 5,
                     nextId := 7 } " " 5 rfl rfl).2 (by decide)

/-- Claim C3 counterexample. — The claim says that for a stream with N ≥ 1 tokens
the events enqueued for the stream are exactly `stream_start`, the N tokens,
`stream_end`, and that no `complete_message` whose id equals the streamId is
enqueued.  On the code it fails: in a fresh turn, a stream of one token
`"hi"` finished with content `"hi"` additionally enqueues, after the
`stream_end`, a fallback `complete_message` whose id 0 equals the stream's
id (the primary sender has not yet marked the content at finish time, so the
check-then-send fallback in `finish_llm_stream` fires). -/
theorem C3_counterexample :
    (runHooks (fun x => x) initState
      [Hook.turnStart, Hook.startStream, Hook.token "hi",
       Hook.finishStream "hi"]).2 =
      [{ ev := Ev.streamStart 0 "assistant", traceId := some 1 },
       { ev := Ev.streamToken 0 "hi", traceId := some 2 },
       { ev := Ev.streamEnd 0, traceId := some 3 },
       { ev := Ev.completeMessage 0 "hi" "assistant", traceId := some 4 }] := by
  decide

lemma runHooks_append (hash : String → String) (s : CBState)
    (a b : List Hook) :
    runHooks hash s (a ++ b) =
      ((runHooks hash (runHooks hash s a).1 b).1,
       (runHooks hash s a).2 ++ (runHooks hash (runHooks hash s a).1 b).2) := by
  induction a generalizing s with
  | nil => simp [runHooks]
  | cons h rest ih =>
      simp only [List.cons_append, runHooks_cons, ih]
      simp

lemma runTokens (hash : String → String) (mid : Nat) (toks : List String) :
    ∀ s : CBState, s.currentStreamId = some mid →
    (runHooks hash s (toks.map Hook.token)).2.map Queued.ev =
      toks.map (Ev.streamToken mid) ∧
    (runHooks hash s (toks.map Hook.token)).1.currentStreamId = some mid ∧
    (runHooks hash s (toks.map Hook.token)).1.streamStarted = s.streamStarted ∧
    (runHooks hash s (toks.map Hook.token)).1.sentMessageHashes =
      s.sentMessageHashes := by
  induction toks with
  | nil => intro s hcs; simp [runHooks, hcs]
  | cons t rest ih =>
      intro s hcs
      have hstep :
          stepHook hash s (Hook.token t) =
            ({ s with streamingTokens := s.streamingTokens ++ [t],
                      nextId := s.nextId + 1 },
             [{ ev := Ev.streamToken mid t, traceId := some s.nextId }]) := by
        simp [stepHook, streamTokenCb, hcs, queueMessage, freshId]
      obtain ⟨ih1, ih2, ih3, ih4⟩ :=
        ih { s with streamingTokens := s.streamingTokens ++ [t],
                    nextId := s.nextId + 1 } (by simpa using hcs)
      simp [List.map_cons, runHooks_cons, hstep, ih1, ih2, ih3, ih4]

lemma finishFallbackEvents (hash : String → String) (c : String)
    (hc : pyStrip c = c) (hne : c ≠ "") (B : CBState) (mid : Nat)
    (hss : B.streamStarted = true) (hmid : B.currentStreamId = some mid)
    (hsh : hash c ∉ B.sentMessageHashes) :
    (finishLlmStream hash B c).2.map Queued.ev =
      [Ev.streamEnd mid, Ev.completeMessage mid c "assistant"] := by
  simp [finishLlmStream, hss, hmid, hc, hne, isMessageAlreadySent,
        getMessageHash, hsh, queueMessage, freshId, markMessageAsSent]

/-- Claim C3 amended. — For a stream of N tokens between a stream-start and a
stream-finish with trimmed non-empty content `c`, in a turn whose dedup
ledger is empty, the enqueued events are exactly one `stream_start`, the N
`stream_token`s in arrival order, one `stream_end` — and then, because the
content's fingerprint is not yet in the ledger at finish time, exactly one
fallback `complete_message` whose message id EQUALS the stream's id.  Only
when the fingerprint is already in the ledger at finish time does the finish
enqueue the `stream_end` alone, as the original claim stated. -/
theorem C3_amended_stream_event_sequence (hash : String → String)
    (c : String) (toks : List String) (s₀ : CBState)
    (hc : pyStrip c = c) (hne : c ≠ "") (hled : s₀.sentMessageHashes = []) :
    (runHooks hash s₀ ([Hook.startStream] ++ toks.map Hook.token ++
        [Hook.finishStream c])).2.map Queued.ev =
      [Ev.streamStart s₀.nextId "assistant"] ++
        toks.map (Ev.streamToken s₀.nextId) ++
        [Ev.streamEnd s₀.nextId, Ev.completeMessage s₀.nextId c "assistant"] ∧
    (∀ (s : CBState) (mid : Nat), s.streamStarted = true →
       s.currentStreamId = some mid →
       hash c ∈ s.sentMessageHashes →
       (finishLlmStream hash s c).2.map Queued.ev = [Ev.streamEnd mid]) := by
  constructor
  · rw [runHooks_append, runHooks_append]
    have hA :
        runHooks hash s₀ [Hook.startStream] =
          stepHook hash s₀ Hook.startStream := by
      simp [runHooks]
    have hAstate :
        (stepHook hash s₀ Hook.startStream).1 =
          { s₀ with streamStarted := true, streamingTokens := [],
                    currentStreamId := some s₀.nextId,
                    nextId := s₀.nextId + 2 } := by
      simp [stepHook, startLlmStream, freshId, queueMessage]
    have hAmsgs :
        (stepHook hash s₀ Hook.startStream).2.map Queued.ev =
          [Ev.streamStart s₀.nextId "assistant"] := by
      simp [stepHook, startLlmStream, freshId, queueMessage]
    obtain ⟨ht1, ht2, ht3, ht4⟩ :=
      runTokens hash s₀.nextId toks (stepHook hash s₀ Hook.startStream).1
        (by rw [hAstate])
    have hBss :
        (runHooks hash (stepHook hash s₀ Hook.startStream).1
          (toks.map Hook.token)).1.streamStarted = true := by
      rw [ht3, hAstate]
    have hBsh :
        hash c ∉
          (runHooks hash (stepHook hash s₀ Hook.startStream).1
            (toks.map Hook.token)).1.sentMessageHashes := by
      rw [ht4, hAstate]
      simp [hled]
    have hsing :
        ∀ B : CBState, runHooks hash B [Hook.finishStream c] =
          ((finishLlmStream hash B c).1, (finishLlmStream hash B c).2) := by
      intro B
      simp [runHooks, stepHook]
    rw [hA, hsing]
    have hfin := finishFallbackEvents hash c hc hne _ s₀.nextId hBss ht2 hBsh
    rw [List.map_append, List.map_append, hAmsgs, ht1, hfin]
  · intro s mid hss hmid hmem
    simp [finishLlmStream, hss, hmid, hc, hne, isMessageAlreadySent,
          getMessageHash, hmem, queueMessage, freshId]

/-- Witness for the amended C3 at a concrete stream: two tokens then finish
in a fresh turn yields start, the two tokens, end, and the fallback complete
message carrying the stream's id. -/
theorem C3_amended_stream_event_sequence_witness :
    (runHooks (fun x => x) initState
      ([Hook.startStream] ++ [Hook.token "a", Hook.token "b"] ++
        [Hook.finishStream "ab"])).2.map Queued.ev =
      [Ev.streamStart 0 "assistant", Ev.streamToken 0 "a",
       Ev.streamToken 0 "b", Ev.streamEnd 0,
       Ev.completeMessage 0 "ab" "assistant"] := by
  have h := (C3_amended_stream_event_sequence (fun x => x) "ab" ["a", "b"]
    initState (by decide) (by decide) rfl).1
  simpa using h


lemma setWebsocketState_connected_fields (s : Session) :
    (setWebsocketState s WSState.connected).websocketState =
      WSState.connected ∧
    (setWebsocketState s WSState.connected).sessionId = s.sessionId ∧
    (setWebsocketState s WSState.connected).websocket = s.websocket ∧
    (setWebsocketState s WSState.connected).userInputQueue =
      s.userInputQueue ∧
    (setWebsocketState s WSState.connected).outgoingQueue = s.outgoingQueue ∧
    (setWebsocketState s WSState.connected).taskThreadAlive =
      s.taskThreadAlive := by
  by_cases hold : s.websocketState = WSState.connected
  · simp [setWebsocketState, resumeTask, hold]
  · by_cases hp : s.taskPaused
    · simp [setWebsocketState, resumeTask, hold, hp]
    · simp [setWebsocketState, resumeTask, hold, hp]

/-- Claim C5. — `create_or_get_session` for a browser identity that maps to a
registered session returns that session (same session id) with
`is_new = false`, rebinds its websocket to the new connection, clears both
the inbound input queue and the outgoing delivery queue, sets the connection
state to CONNECTED, leaves the turn-loop thread untouched (and the
subsequent `start(send_greeting := false)` on the reconnect path starts no
second thread); for a browser identity with no registered session — or none —
it constructs a new session and returns `is_new = true`. -/
theorem C5_create_or_get_session_reuse (mgr : SessionManager) (ws : Nat)
    (b sid freshSid : String) (s : Session)
    (hb : lookupAssoc mgr.browserSessions b = some sid)
    (hs : lookupAssoc mgr.sessions sid = some s) :
    ((createOrGetSession mgr ws (some b) freshSid).2.2 = false ∧
     (createOrGetSession mgr ws (some b) freshSid).2.1.sessionId =
       s.sessionId ∧
     (createOrGetSession mgr ws (some b) freshSid).2.1.websocket = ws ∧
     (createOrGetSession mgr ws (some b) freshSid).2.1.userInputQueue = [] ∧
     (createOrGetSession mgr ws (some b) freshSid).2.1.outgoingQueue = [] ∧
     (createOrGetSession mgr ws (some b) freshSid).2.1.websocketState =
       WSState.connected ∧
     (createOrGetSession mgr ws (some b) freshSid).2.1.taskThreadAlive =
       s.taskThreadAlive ∧
     (startSession (createOrGetSession mgr ws (some b) freshSid).2.1
        false).2.2 = false) ∧
    (∀ (mgr' : SessionManager) (ws' : Nat) (fresh : String),
       (createOrGetSession mgr' ws' none fresh).2.2 = true) ∧
    (∀ (mgr' : SessionManager) (ws' : Nat) (b' fresh : String),
       lookupAssoc mgr'.browserSessions b' = none →
       (createOrGetSession mgr' ws' (some b') fresh).2.2 = true) ∧
    (∀ (mgr' : SessionManager) (ws' : Nat) (b' sid' fresh : String),
       lookupAssoc mgr'.browserSessions b' = some sid' →
       lookupAssoc mgr'.sessions sid' = none →
       (createOrGetSession mgr' ws' (some b') fresh).2.2 = true) := by
  refine ⟨?_, ?_, ?_, ?_⟩
  · have hres :
        createOrGetSession mgr ws (some b) freshSid =
          ({ mgr with
              sessions := setAssoc mgr.sessions sid
                (setWebsocketState
                  { s with websocket := ws, userInputQueue := [],
                           outgoingQueue := [] } WSState.connected) },
            setWebsocketState
              { s with websocket := ws, userInputQueue := [],
                       outgoingQueue := [] } WSState.connected, false) := by
      simp [createOrGetSession, hb, hs, clearStaleUserInput]
    obtain ⟨f1, f2, f3, f4, f5, f6⟩ :=
      setWebsocketState_connected_fields
        { s with websocket := ws, userInputQueue := [], outgoingQueue := [] }
    refine ⟨by rw [hres], by rw [hres]; exact f2, by rw [hres]; exact f3,
            by rw [hres]; exact f4, by rw [hres]; exact f5,
            by rw [hres]; exact f1, by rw [hres]; exact f6, ?_⟩
    rw [hres]
    simp [startSession]
  · intro mgr' ws' fresh
    simp [createOrGetSession, createNewSession]
  · intro mgr' ws' b' fresh hnone
    simp [createOrGetSession, hnone, createNewSession]
  · intro mgr' ws' b' sid' fresh hb' hnone
    simp [createOrGetSession, hb', hnone, createNewSession]

/-- Witness for C5 at a concrete registry: reconnecting browser `"b1"` to
its registered session `"sid1"` reuses it (`is_new = false`) and keeps its
session id. -/
theorem C5_create_or_get_session_reuse_witness :
    (createOrGetSession
      { sessions := [("sid1", newSession "sid1" 3)],
        browserSessions := [("b1", "sid1")] } 9 (some "b1") "fresh").2.2 =
      false ∧
    (createOrGetSession
      { sessions := [("sid1", newSession "sid1" 3)],
        browserSessions := [("b1", "sid1")] } 9 (some "b1") "fresh").2.1.sessionId =
      "sid1" := by
  have h := (C5_create_or_get_session_reuse
    { sessions := [("sid1", newSession "sid1" 3)],
      browserSessions := [("b1", "sid1")] } 9 "b1" "sid1" "fresh"
    (newSession "sid1" 3) (by decide) (by decide)).1
  exact ⟨h.1, h.2.1⟩

/-- Claim C6. — When no user message arrives on the inbound input queue within
the 300 s bound (the queue stays empty), `get_user_response` returns the
empty-string sentinel — a normal return value, not an exception raised into
the agent engine — whatever the pause-gate situation on entry. -/
theorem C6_input_timeout_returns_sentinel
    (hasSession gateInitiallySet gateSetWithinTimeout : Bool) :
    (getUserResponse hasSession gateInitiallySet gateSetWithinTimeout []).1 =
      "" ∧
    (getUserResponse hasSession gateInitiallySet gateSetWithinTimeout
      []).2.1 = [] := by
  cases hasSession <;> cases gateInitiallySet <;> exact ⟨rfl, rfl⟩

/-- Claim C7 counterexample. — The claim says `get_user_response` entered with
the pause gate cleared never consumes user input while the gate is still
cleared.  On the code it fails: `pause_event.wait(timeout=300)` falls
through after the bound, so with the gate never set
(`gateInitiallySet = false`, `gateSetWithinTimeout = false`) the operation
still proceeds to the inbound queue and consumes `"hello"`. -/
theorem C7_counterexample :
    (getUserResponse true false false ["hello"]).1 = "hello" ∧
    (getUserResponse true false false ["hello"]).2.2 =
      [WaitAction.waitPauseGate, WaitAction.waitInputQueue] := by decide

/-- Claim C7 amended. — Entered with a session whose pause gate is cleared,
`get_user_response` first blocks on the pause gate and only then on the
inbound input queue (the gate wait strictly precedes the queue wait in the
blocking trace); but the gate wait is bounded at 300 s, and when it times
out without reconnection the operation proceeds to block on — and consume
from — the input queue even though the gate is still cleared. -/
theorem C7_amended_gate_wait_first (gateSetWithinTimeout : Bool)
    (q : List String) :
    (getUserResponse true false gateSetWithinTimeout q).2.2 =
      [WaitAction.waitPauseGate, WaitAction.waitInputQueue] ∧
    (∀ (x : String) (rest : List String),
       (getUserResponse true false false (x :: rest)).1 = x) := by
  constructor
  · cases q <;> rfl
  · intro x rest
    rfl

/-- Claim C9. — `handle_message` answers a `"ping"` with a direct
`{"type":"pong"}` reply and leaves the session untouched; a message of any
unknown type is logged and ignored — no state change, no reply, no
exception, and the connection state (hence the connection) is untouched. -/
theorem C9_ping_pong_unknown_ignored (s : Session) (content : String) :
    handleMessage s "ping" content =
      (s, [{ ev := Ev.pong, traceId := none }], Handled.ponged) ∧
    (∀ t : String, t ≠ "user_input" → t ≠ "message" → t ≠ "ping" →
       handleMessage s t content = (s, [], Handled.ignoredUnknown)) := by
  constructor
  · simp [handleMessage]
  · intro t h1 h2 h3
    simp [handleMessage, h1, h2, h3]

/-- Witness for C9: an inbound message of unknown type `"bogus"` is ignored
with the session unchanged. -/
theorem C9_ping_pong_unknown_ignored_witness :
    handleMessage (newSession "s1" 0) "bogus" "x" =
      (newSession "s1" 0, [], Handled.ignoredUnknown) :=
  (C9_ping_pong_unknown_ignored (newSession "s1" 0) "x").2 "bogus"
    (by decide) (by decide) (by decide)

/-- Claim C10 counterexample. — The claim says every serialized event delivered
to the client carries the `_trace_id` key.  It fails for the events the
session sends directly, bypassing the outbound queue and `_queue_message`:
the `{"type":"pong"}` reply is delivered with no `_trace_id`
(`traceId = none`). -/
theorem C10_counterexample :
    (handleMessage (newSession "s1" 0) "ping" "").2.1 =
      [{ ev := Ev.pong, traceId := none }] := by decide

lemma stepHook_trace_id (hash : String → String) (s : CBState) (h : Hook) :
    ∀ q ∈ (stepHook hash s h).2, q.traceId.isSome = true := by
  intro q hq
  cases h with
  | turnStart => simp [stepHook] at hq
  | startStream =>
      simp [stepHook, startLlmStream, freshId, queueMessage] at hq
      simp [hq]
  | token t =>
      cases hcs : s.currentStreamId with
      | none => simp [stepHook, streamTokenCb, hcs] at hq
      | some mid =>
          simp [stepHook, streamTokenCb, hcs, freshId, queueMessage] at hq
          simp [hq]
  | finishStream cr =>
      simp only [stepHook, finishLlmStream] at hq
      split at hq
      · simp at hq
      · split at hq
        · simp [queueMessage, freshId] at hq
          simp [hq]
        · split at hq
          · simp [queueMessage, freshId] at hq
            simp [hq]
          · simp [queueMessage, freshId] at hq
            rcases hq with hq | hq <;> simp [hq]
  | showResponse cr =>
      simp only [stepHook, showLlmResponse] at hq
      split at hq
      · simp at hq
      · split at hq
        · simp at hq
        · simp [queueMessage, freshId] at hq
          simp [hq]
  | primaryResponse oc cached =>
      cases oc with
      | none => simp [stepHook, llmResponseMessagesWithContext] at hq
      | some cr =>
          simp only [stepHook, llmResponseMessagesWithContext] at hq
          split at hq
          · simp at hq
          · split at hq
            · simp at hq
            · simp only [sendAssistantMessage] at hq
              split at hq
              · simp at hq
              · simp [queueMessage, freshId] at hq
                simp [hq]

/-- Claim C10 amended. — Every event the callback bridge enqueues on the
outbound delivery queue goes through `_queue_message` and is therefore
stamped with a `_trace_id` before the enqueue; but the events the session
sends directly without the queue — the `connection_status` in `start` and
the `pong` replies — carry no `_trace_id`, so not every event delivered to
the client has the field. -/
theorem C10_amended_trace_id_only_on_queued (hash : String → String)
    (s : CBState) (evs : List Hook) :
    (∀ q ∈ (runHooks hash s evs).2, q.traceId.isSome = true) ∧
    (∀ (sess : Session) (greeting : Bool),
       ∀ q ∈ (startSession sess greeting).2.1, q.traceId = none) := by
  constructor
  · induction evs generalizing s with
    | nil => simp [runHooks]
    | cons h rest ih =>
        intro q hq
        rw [runHooks_cons] at hq
        rcases List.mem_append.mp hq with hmem | hmem
        · exact stepHook_trace_id hash s h q hmem
        · exact ih (stepHook hash s h).1 q hmem
  · intro sess greeting q hq
    simp only [startSession] at hq
    split at hq <;> simp at hq <;> simp [hq]

/-- Witness for the amended C10: the `complete_message` enqueued by
`show_llm_response` for `"hi"` is stamped with a trace id. -/
theorem C10_amended_trace_id_only_on_queued_witness :
    (Option.some 1).isSome = true :=
  (C10_amended_trace_id_only_on_queued (fun x => x) initState
    [Hook.showResponse "hi"]).1
    { ev := Ev.completeMessage 0 "hi" "assistant", traceId := some 1 }
    (by decide)

end LangroidUI
